import Mathlib

/-!
Verification of the `rotate` log-rotation package.

The Go source is shallowly embedded: each Lean definition transcribes the
corresponding Go function, with file-system and clock effects supplied
explicitly as parameters (records of syscall outcomes, timestamp strings
produced by the clock, the directory listing as an input list).  Go `int64`
is modelled as `Int`; byte payloads are modelled by their length.  A Go
runtime panic (slice bounds out of range, nil pointer dereference) and a
blocked channel send are modelled by an `Option`-typed result being `none`.

The repository carries two revisions of the writer: `rotatewriter.go`
(count sweep `deleteOverMaxFiles`, no empty-name guard) and the later
revision (count sweep `removeOverMaxFiles` with the corrected early-return
guard, plus the `ErrFileNameIsEmpty` guard in `NewRotateWriter`).  Both
count sweeps are embedded; the remaining functions are identical in the two
revisions up to renaming.
-/

namespace Rotate

/-- Errors returned by the writer: the package sentinel errors plus wrapped
OS errors, the latter tagged with the failing operation. -/
inductive GoErr where
  | fileNameIsEmpty
  | logFileClosed
  | dataOversize
  | ioErr (op : String)
  deriving DecidableEq, Repr

/-- Go `megabyte = 1024 * 1024` from constants.go. -/
def megabyte : Int := 1024 * 1024

/-- Go `defaultMaxDays = 30` from constants.go. -/
def defaultMaxDays : Int := 30

/-- Go `defaultMaxSize = 128` from constants.go. -/
def defaultMaxSize : Int := 128

/-- Go `defaultMaxBackups = 30` from constants.go. -/
def defaultMaxBackups : Int := 30

/-- Go `defaultDelimiter = "-"` from constants.go. -/
def defaultDelimiter : String := "-"

/-- A wall-clock instant at millisecond precision, the fields Go
`time.Format` reads for the layouts used by this package. -/
structure DateTime where
  year : Nat
  month : Nat
  day : Nat
  hour : Nat
  minute : Nat
  sec : Nat
  msec : Nat
  deriving DecidableEq, Repr

/-- Zero-padded fixed-width decimal digits of `n`, most significant first:
the semantics of the zero-padded numeric verbs of Go time layouts
(`2006`, `01`, `02`, `15`, `04`, `05`, `.000`). -/
def padDigits : Nat → Nat → List Char
  | 0, _ => []
  | w + 1, n => padDigits w (n / 10) ++ [Nat.digitChar (n % 10)]

/-- The date-time body shared by all three default layouts:
`2006-01-02T15:04:05` applied to a wall instant. -/
def dtChars (t : DateTime) : List Char :=
  padDigits 4 t.year ++ ['-'] ++ padDigits 2 t.month ++ ['-'] ++ padDigits 2 t.day ++
    ['T'] ++ padDigits 2 t.hour ++ [':'] ++ padDigits 2 t.minute ++ [':'] ++
    padDigits 2 t.sec

/-- Character list of the layout `2006-01-02T15:04:05.000`. -/
def milliChars (t : DateTime) : List Char :=
  dtChars t ++ ['.'] ++ padDigits 3 t.msec

/-- Go layout `2006-01-02T15:04:05.000` (the `defaultTimeFormat` of the
`defaultMaxBackups = 0` constants revision): fixed-width zero-padded
millisecond fraction, no zone suffix. -/
def formatMilli (t : DateTime) : String :=
  ⟨milliChars t⟩

/-- Go fractional-second verb `.999`: at most three digits with trailing
zeros removed, and nothing at all (not even the dot) when the millisecond
fraction is zero. -/
def frac999 (ms : Nat) : List Char :=
  if ms = 0 then []
  else if ms % 100 = 0 then ['.', Nat.digitChar (ms / 100)]
  else if ms % 10 = 0 then ['.'] ++ padDigits 2 (ms / 10)
  else ['.'] ++ padDigits 3 ms

/-- Go zone verb `Z07:00`: the single letter `Z` when the zone offset is
zero (in particular for every UTC-policy timestamp), otherwise a sign
followed by zero-padded hours and minutes of offset. -/
def zone999 (offsetMin : Int) : List Char :=
  if offsetMin = 0 then ['Z']
  else if 0 < offsetMin then
    ['+'] ++ padDigits 2 (offsetMin.toNat / 60) ++ [':'] ++ padDigits 2 (offsetMin.toNat % 60)
  else
    ['-'] ++ padDigits 2 ((-offsetMin).toNat / 60) ++ [':'] ++ padDigits 2 ((-offsetMin).toNat % 60)

/-- Go layout `2006-01-02T15:04:05.999Z07:00` (the `defaultTimeFormat` of
constants.go) applied to a wall instant carrying zone offset `offsetMin`
minutes.  The UTC policy formats the UTC wall time, whose offset is 0. -/
def format999 (t : DateTime) (offsetMin : Int) : String :=
  ⟨dtChars t ++ frac999 t.msec ++ zone999 offsetMin⟩

/-- Chronological (strict) order of wall instants at millisecond
precision. -/
def dtLt (a b : DateTime) : Prop :=
  a.year < b.year ∨ (a.year = b.year ∧ (a.month < b.month ∨ (a.month = b.month ∧
    (a.day < b.day ∨ (a.day = b.day ∧ (a.hour < b.hour ∨ (a.hour = b.hour ∧
    (a.minute < b.minute ∨ (a.minute = b.minute ∧ (a.sec < b.sec ∨
    (a.sec = b.sec ∧ a.msec < b.msec)))))))))))

instance (a b : DateTime) : Decidable (dtLt a b) := by
  unfold dtLt; infer_instance

/-- Field bounds under which each field fits its zero-padded width. -/
def validDT (t : DateTime) : Prop :=
  t.year < 10000 ∧ t.month < 100 ∧ t.day < 100 ∧ t.hour < 100 ∧
    t.minute < 100 ∧ t.sec < 100 ∧ t.msec < 1000

instance (t : DateTime) : Decidable (validDT t) := by
  unfold validDT; infer_instance

/-- Go `backupFileName()`: prefix + delimiter + formatted timestamp +
extension. -/
def backupFileName (pfx delim ts ext : String) : String :=
  pfx ++ delim ++ ts ++ ext

/-- Boundary sentinel built by the age sweep: the backup-name shape applied
to the boundary timestamp, plus `.gz` when compression is on. -/
def boundaryFileName (pfx delim ts ext : String) (gz : Bool) : String :=
  pfx ++ delim ++ ts ++ ext ++ (if gz then ".gz" else "")

/-- Nanoseconds in one hour, the value of Go `time.Hour`. -/
def nsPerHour : Int := 3600 * 1000000000

/-- Go `dateline(format, local, delay)`: formats the instant `now + delay`.
The clock instant (nanoseconds) and the policy-resolved formatting function
are supplied explicitly. -/
def dateline (fmt : Int → String) (now delay : Int) : String :=
  fmt (now + delay)

/-- Go `sort.Strings`: ascending lexical sort. -/
def sortStrings (l : List String) : List String :=
  List.insertionSort (· ≤ ·) l

/-- The removal loop of the count sweeps: `os.Remove` each file in order,
stopping at the first failure and latching its error.  Returns the files
actually removed and the latched error. -/
def removeLoop (removeOk : String → Bool) : List String → List String × Option GoErr
  | [] => ([], none)
  | f :: fs =>
    if removeOk f then
      let rest := removeLoop removeOk fs
      (f :: rest.1, rest.2)
    else ([], some (GoErr.ioErr "remove"))

/-- The loop of the age sweep: files at or above the boundary are skipped
(`if file >= boundaryFile continue`), files below it are removed until the
first removal failure, which stops the loop. -/
def ageSweepLoop (boundaryFile : String) (removeOk : String → Bool) :
    List String → List String × Option GoErr
  | [] => ([], none)
  | f :: fs =>
    if boundaryFile ≤ f then ageSweepLoop boundaryFile removeOk fs
    else if removeOk f then
      let rest := ageSweepLoop boundaryFile removeOk fs
      (f :: rest.1, rest.2)
    else ([], some (GoErr.ioErr "remove"))

/-- Go `removeOutdatedFiles` / `deleteOutdatedFiles` (identical in both
revisions): disabled for non-positive max days; otherwise lists the
backups (the listing is an input, a failed listing latches the error),
builds the boundary name from the clock shifted back by
`24 * maxDays` hours, and removes every listed file lexically below it. -/
def removeOutdatedFiles (pfx delim ext : String) (gz : Bool) (maxDays : Int)
    (fmt : Int → String) (now : Int) (listOk : Bool) (removeOk : String → Bool)
    (files : List String) : List String × Option GoErr :=
  if maxDays ≤ 0 then ([], none)
  else if !listOk then ([], some (GoErr.ioErr "glob"))
  else
    let boundary := dateline fmt now (-(nsPerHour * (24 * maxDays)))
    let boundaryFile := boundaryFileName pfx delim boundary ext gz
    ageSweepLoop boundaryFile removeOk files

/-- Go `removeOverMaxFiles` (later revision): disabled for non-positive
max backups; after sorting ascending, the early return
`maxBackups <= 0 || maxBackups >= int64(remain)` keeps every file when the
budget covers the count, otherwise the first `remain - maxBackups` names of
the sort are removed. -/
def removeOverMaxFiles (maxBackups : Int) (listOk : Bool)
    (removeOk : String → Bool) (files : List String) :
    List String × Option GoErr :=
  if maxBackups ≤ 0 then ([], none)
  else if !listOk then ([], some (GoErr.ioErr "glob"))
  else
    let sorted := sortStrings files
    let remain := sorted.length
    if maxBackups ≤ 0 ∨ (remain : Int) ≤ maxBackups then ([], none)
    else removeLoop removeOk (sorted.take (remain - maxBackups.toNat))

/-- Go `deleteOverMaxFiles` (rotatewriter.go revision).  Its early return
reads `maxBackups <= 0 && maxBackups >= int64(remain)`, unsatisfiable after
the positive-maxBackups guard above it, so control always reaches the slice
`oldFiles[:remain-int(maxBackups)]`; a negative bound there is a Go runtime
panic, modelled as `none`. -/
def deleteOverMaxFiles (maxBackups : Int) (listOk : Bool)
    (removeOk : String → Bool) (files : List String) :
    Option (List String × Option GoErr) :=
  if maxBackups ≤ 0 then some ([], none)
  else if !listOk then some ([], some (GoErr.ioErr "glob"))
  else
    let sorted := sortStrings files
    let remain := sorted.length
    if maxBackups ≤ 0 ∧ maxBackups ≥ (remain : Int) then some ([], none)
    else if (remain : Int) - maxBackups < 0 then none
    else some (removeLoop removeOk (sorted.take (remain - maxBackups.toNat)))

/-- Capacity of the `postCh` hand-off channel: `make(chan string, 100)`. -/
def chanCap : Nat := 100

/-- Go buffered-channel send `r.postCh <- name`: completes immediately iff
the buffer has free space; with a full buffer (and no ready receiver) the
sender blocks, modelled as `none`. -/
def chanSend (q : List String) (name : String) : Option (List String) :=
  if q.length < chanCap then some (q ++ [name]) else none

/-- Outcomes of the OS calls one writer operation may perform. -/
structure SysEnv where
  statOk : Bool
  renameOk : Bool
  createOk : Bool
  fpCloseOk : Bool
  fpWriteOk : Bool
  syncOk : Bool
  closeOk : Bool
  deriving DecidableEq, Repr

/-- State of a `RotateWriter`.  `fpOpen` models `fp != nil`, `fileBytes` the
byte count of the active file, `queue` the buffered contents of `postCh`,
`onceUsed` the consumed `closeOnce`.  The ghost counters `rotations`,
`syncs` and `closes` count completed side effects for the theorems and have
no Go counterpart. -/
structure RW where
  filename : String
  pfx : String
  ext : String
  delim : String
  backupName : String
  size : Int
  maxSize : Int
  errLatch : Option GoErr
  done : Bool
  onceUsed : Bool
  fpOpen : Bool
  fileBytes : Nat
  queue : List String
  rotations : Nat
  syncs : Nat
  closes : Nat
  deriving DecidableEq, Repr

/-- Go `rotate()`: close the open handle (a close failure returns at once,
leaving the handle in place), rename the active file to the precomputed
backup name when the file exists and the name is nonempty, hand the retired
name to the maintainer channel, precompute the next backup name from the
clock (`nowTs`), and recreate the active file.  `none` models a blocked
channel send. -/
def rotate (env : SysEnv) (nowTs : String) (r : RW) : Option (RW × Option GoErr) :=
  if r.fpOpen && !env.fpCloseOk then some (r, some (GoErr.ioErr "close"))
  else
    let r1 : RW := { r with fpOpen := false }
    let finish : RW → Option (RW × Option GoErr) := fun r2 =>
      let r3 : RW := { r2 with backupName := backupFileName r2.pfx r2.delim nowTs r2.ext }
      if env.createOk then
        some ({ r3 with fpOpen := true, fileBytes := 0 }, none)
      else some (r3, some (GoErr.ioErr "create"))
    if env.statOk && r1.backupName.length > 0 then
      if !env.renameOk then some (r1, some (GoErr.ioErr "rename"))
      else
        match chanSend r1.queue r1.backupName with
        | none => none
        | some q => finish { r1 with queue := q }
    else finish r1

/-- The tail of Go `write()`: `if r.fp != nil { fp.Write(data); size += }`.
With no open handle the payload is silently dropped and nil returned; on a
handle write error the size counter is not advanced. -/
def writeAppend (env : SysEnv) (data : Nat) (r : RW) : Option (RW × Option GoErr) :=
  if r.fpOpen then
    if env.fpWriteOk then
      some ({ r with fileBytes := r.fileBytes + data, size := r.size + (data : Int) }, none)
    else some (r, some (GoErr.ioErr "write"))
  else some (r, none)

/-- Go `write(data)`: rotate first when the pending write would overflow
`maxSize` (a rotate error aborts the write, leaving the size counter),
reset the size counter to zero after a successful rotation, then append.
`data` is the payload length. -/
def write (env : SysEnv) (nowTs : String) (data : Nat) (r : RW) :
    Option (RW × Option GoErr) :=
  if r.size + (data : Int) > r.maxSize then
    match rotate env nowTs r with
    | none => none
    | some (r1, some e) => some (r1, some e)
    | some (r1, none) =>
      writeAppend env data { r1 with size := 0, rotations := r1.rotations + 1 }
  else writeAppend env data r

/-- Go `Write(data)`: the public path under the mutex — closed check,
oversize check, surfacing (and clearing) of the latched maintenance error,
then the internal write.  Returns the new state, the byte count reported to
the caller, and the error. -/
def Write (env : SysEnv) (nowTs : String) (data : Nat) (r : RW) :
    Option (RW × Nat × Option GoErr) :=
  if r.done then some (r, 0, some GoErr.logFileClosed)
  else if (data : Int) > r.maxSize then some (r, 0, some GoErr.dataOversize)
  else
    match r.errLatch with
    | some e => some ({ r with errLatch := none }, 0, some e)
    | none =>
      match write env nowTs data r with
      | none => none
      | some (r1, some e) => some (r1, 0, some e)
      | some (r1, none) => some (r1, data, none)

/-- Go `Close()`: the body runs under `closeOnce.Do`, so a second call skips
it and the named return `err` keeps its zero value nil.  Inside the body,
`done` is stored, `postDone` closed, then `fp.Sync()` is called with no nil
check — a writer whose handle was lost to a failed rotation dereferences
nil and panics, modelled as `none`.  A sync failure returns before the
handle is closed. -/
def Close (env : SysEnv) (r : RW) : Option (RW × Option GoErr) :=
  if r.onceUsed then some (r, none)
  else
    let r1 : RW := { r with onceUsed := true, done := true }
    if !r.fpOpen then none
    else
      let r2 : RW := { r1 with syncs := r1.syncs + 1 }
      if !env.syncOk then some (r2, some (GoErr.ioErr "sync"))
      else
        let r3 : RW := { r2 with closes := r2.closes + 1, fpOpen := false }
        if !env.closeOk then some (r3, some (GoErr.ioErr "fclose"))
        else some (r3, none)

/-- Go `rotateOption`. -/
structure RotateOpt where
  delimiter : String
  timeFormat : String
  gzip : Bool
  localTime : Bool
  maxDays : Int
  maxSize : Int
  maxBackups : Int
  deriving DecidableEq, Repr

/-- The defaults installed by `NewRotateWriter` before applying options. -/
def defaultOpt : RotateOpt :=
  { delimiter := defaultDelimiter
    timeFormat := "2006-01-02T15:04:05.999Z07:00"
    gzip := false
    localTime := true
    maxDays := defaultMaxDays
    maxSize := defaultMaxSize * megabyte
    maxBackups := defaultMaxBackups }

/-- Outcomes of the OS calls `init()` may perform. -/
structure InitEnv where
  fileExists : Bool
  dirExists : Bool
  mkdirOk : Bool
  createOk : Bool
  openOk : Bool
  deriving DecidableEq, Repr

/-- Scan of Go `filepath.Ext` over the reversed character list: walking the
path from its end, a dot met before any path separator marks the extension
(returned in forward order via the accumulator). -/
def extFromRev : List Char → List Char → List Char
  | [], _ => []
  | c :: cs, acc =>
    if c = '/' then []
    else if c = '.' then c :: acc
    else extFromRev cs (c :: acc)

/-- Go `filepath.Ext`: the suffix of the last slash-separated element
starting at its final dot; empty when that element has no dot. -/
def goExt (s : String) : String :=
  ⟨extFromRev s.toList.reverse []⟩

/-- Go `r.filename[:len(r.filename)-len(r.ext)]`. -/
def goStem (s : String) : String :=
  ⟨s.toList.take (s.toList.length - (goExt s).toList.length)⟩

/-- Result of `NewRotateWriter`: the writer or the error, plus flags
recording whether any file create/open was attempted and whether the
background maintainer task was started. -/
structure NewResult where
  writer : Option RW
  err : Option GoErr
  fileTouched : Bool
  taskStarted : Bool
  deriving DecidableEq, Repr

/-- Go `init()`: derive extension, prefix and the first backup name, then
create the file (making the directory first when missing) or open it for
append. -/
def initRW (env : InitEnv) (nowTs : String) (opt : RotateOpt) (filename : String) :
    Option RW × Option GoErr × Bool :=
  let ext := goExt filename
  let pfx := goStem filename
  let backupName := backupFileName pfx opt.delimiter nowTs ext
  let base : RW :=
    { filename := filename, pfx := pfx, ext := ext, delim := opt.delimiter
      backupName := backupName, size := 0, maxSize := opt.maxSize
      errLatch := none, done := false, onceUsed := false, fpOpen := false
      fileBytes := 0, queue := [], rotations := 0, syncs := 0, closes := 0 }
  if !env.fileExists then
    if !env.dirExists && !env.mkdirOk then (none, some (GoErr.ioErr "mkdir"), false)
    else if env.createOk then (some { base with fpOpen := true }, none, true)
    else (none, some (GoErr.ioErr "create"), true)
  else if env.openOk then (some { base with fpOpen := true }, none, true)
  else (none, some (GoErr.ioErr "open"), true)

/-- Go `NewRotateWriter` (later revision): the empty-name guard runs before
anything else; then defaults, option application in order, `init()`, and on
success the background maintainer goroutine is started. -/
def NewRotateWriter (env : InitEnv) (nowTs : String) (filename : String)
    (options : List (RotateOpt → RotateOpt)) : NewResult :=
  if filename.length = 0 then
    { writer := none, err := some GoErr.fileNameIsEmpty
      fileTouched := false, taskStarted := false }
  else
    let opt := options.foldl (fun o fn => fn o) defaultOpt
    match initRW env nowTs opt filename with
    | (some w, _, touched) =>
      { writer := some w, err := none, fileTouched := touched, taskStarted := true }
    | (none, e, touched) =>
      { writer := none, err := e, fileTouched := touched, taskStarted := false }

/-- A syscall environment in which every OS call succeeds. -/
def allOkEnv : SysEnv :=
  { statOk := true, renameOk := true, createOk := true, fpCloseOk := true
    fpWriteOk := true, syncOk := true, closeOk := true }

/-- A syscall environment whose `fp.Sync()` fails. -/
def syncFailEnv : SysEnv := { allOkEnv with syncOk := false }

/-- A concrete freshly opened writer on `a.log` with a 100-byte budget,
used by the concrete counterexample and witness theorems. -/
def demoRW : RW where
  filename := "a.log"
  pfx := "a"
  ext := ".log"
  delim := "-"
  backupName := "a-t0.log"
  size := 90
  maxSize := 100
  errLatch := none
  done := false
  onceUsed := false
  fpOpen := true
  fileBytes := 90
  queue := []
  rotations := 0
  syncs := 0
  closes := 0

/-- The state of `demoRW` after a first `Close` whose sync failed: the once
is consumed, `done` is set, one sync was attempted, the handle was not
closed. -/
def demoRWClosed : RW := { demoRW with onceUsed := true, done := true, syncs := 1 }

/-- `demoRW` with the hand-off queue at its full capacity of 100. -/
def demoRWFullQueue : RW := { demoRW with queue := List.replicate 100 "a-t0.log" }

theorem removeLoop_all_ok (l : List String) :
    removeLoop (fun _ => true) l = (l, none) := by
  induction l with
  | nil => rfl
  | cons f fs ih => simp [removeLoop, ih]

/-- C1: the spec promises that nothing in the writer panics, in particular
that a count sweep finding fewer backups on disk than a positive maxBackups
deletes nothing and returns normally.  The rotatewriter.go revision
violates this: with maxBackups = 5 and a single existing backup,
`deleteOverMaxFiles` reaches the slice `oldFiles[:1-5]`, whose negative
bound is a runtime panic (modelled by `none`), while the later revision
`removeOverMaxFiles` returns normally deleting nothing, exactly as the spec
states. -/
theorem deleteOverMaxFiles_panics_under_budget :
    deleteOverMaxFiles 5 true (fun _ => true) ["a-t0.log"] = none ∧
    removeOverMaxFiles 5 true (fun _ => true) ["a-t0.log"] = ([], none) := by
  constructor <;> rfl

/-- C4: constructing a writer with an empty file path fails with the
empty-file-name configuration error, for every set of options and every
environment, touching no file and starting no maintainer task. -/
theorem newRotateWriter_empty_path (env : InitEnv) (ts : String)
    (options : List (RotateOpt → RotateOpt)) :
    NewRotateWriter env ts "" options =
      { writer := none, err := some GoErr.fileNameIsEmpty
        fileTouched := false, taskStarted := false } := rfl

/-- C7: a payload longer than maxSize makes Write report zero bytes written
and the oversize error, leaving the writer state — open handle, active file
bytes, size counter — unchanged, for every not-yet-closed writer and every
syscall environment (no file operation is reached). -/
theorem write_oversize_rejected (env : SysEnv) (ts : String) (p : Nat) (r : RW)
    (hdone : r.done = false) (hp : (p : Int) > r.maxSize) :
    Write env ts p r = some (r, 0, some GoErr.dataOversize) := by
  simp [Write, hdone, hp]

theorem write_oversize_rejected_witness :
    Write allOkEnv "t1" 101 demoRW = some (demoRW, 0, some GoErr.dataOversize) :=
  write_oversize_rejected allOkEnv "t1" 101 demoRW (by decide) (by decide)

/-- C5: a rotation that closes the old handle and then fails at the rename
leaves the writer with no open handle, and afterwards every Write whose
payload fits the remaining budget reports full success `(len p, nil)` while
appending no bytes and leaving the size counter (and all other state)
unchanged. -/
theorem failed_rotation_then_silent_write_loss (env env2 : SysEnv) (ts ts2 : String)
    (p : Nat) (r : RW)
    (hfp : r.fpOpen = true) (hcl : env.fpCloseOk = true) (hst : env.statOk = true)
    (hbn : 0 < r.backupName.length) (hrn : env.renameOk = false)
    (hdone : r.done = false) (hlatch : r.errLatch = none)
    (hpos : 0 ≤ r.size) (hfit : r.size + (p : Int) ≤ r.maxSize) :
    rotate env ts r = some ({ r with fpOpen := false }, some (GoErr.ioErr "rename")) ∧
    Write env2 ts2 p { r with fpOpen := false } =
      some ({ r with fpOpen := false }, p, none) := by
  have hple : ¬ ((p : Int) > r.maxSize) := by omega
  have hnov : ¬ (r.size + (p : Int) > r.maxSize) := by omega
  constructor
  · simp [rotate, hfp, hcl, hst, hbn, hrn]
  · simp [Write, write, writeAppend, hdone, hlatch, hple, hnov]

theorem failed_rotation_then_silent_write_loss_witness :
    rotate { allOkEnv with renameOk := false } "t1" demoRW
        = some ({ demoRW with fpOpen := false }, some (GoErr.ioErr "rename")) ∧
    Write allOkEnv "t2" 5 { demoRW with fpOpen := false }
        = some ({ demoRW with fpOpen := false }, 5, none) :=
  failed_rotation_then_silent_write_loss { allOkEnv with renameOk := false }
    allOkEnv "t1" "t2" 5 demoRW (by decide) (by decide) (by decide) (by decide)
    (by decide) (by decide) (by decide) (by decide) (by decide)

/-- C2 counterexample: on a writer whose handle sync fails, the first Close
returns the sync error while the second returns nil — the two calls do not
return the same result, refuting the claim as stated.  (The side effects do
run only once: the second call leaves the state untouched.) -/
theorem close_twice_results_differ :
    Close syncFailEnv demoRW = some (demoRWClosed, some (GoErr.ioErr "sync")) ∧
    Close syncFailEnv demoRWClosed = some (demoRWClosed, none) ∧
    (some (GoErr.ioErr "sync") : Option GoErr) ≠ none := by
  refine ⟨by decide, by decide, by decide⟩

/-- C2 amended: Close is idempotent in its side effects — across two calls
the handle sync runs exactly once and the handle close at most once (exactly
once when the first call succeeded); the second call changes nothing and
returns nil, which equals the first call's result whenever the first call
succeeded. -/
theorem close_idempotent_effects (env : SysEnv) (r : RW)
    (honce : r.onceUsed = false) (hfp : r.fpOpen = true) :
    ∃ r1 e1, Close env r = some (r1, e1) ∧
      Close env r1 = some (r1, none) ∧
      r1.syncs = r.syncs + 1 ∧ r1.closes ≤ r.closes + 1 ∧
      (e1 = none → r1.closes = r.closes + 1) := by
  by_cases hsy : env.syncOk = true
  · by_cases hcl : env.closeOk = true
    · exact ⟨{ r with onceUsed := true, done := true, syncs := r.syncs + 1, closes := r.closes + 1, fpOpen := false }, none, by simp [Close, honce, hfp, hsy, hcl], by simp [Close], by simp, by simp, fun _ => by simp⟩
    · rw [Bool.not_eq_true] at hcl
      exact ⟨{ r with onceUsed := true, done := true, syncs := r.syncs + 1, closes := r.closes + 1, fpOpen := false }, some (GoErr.ioErr "fclose"), by simp [Close, honce, hfp, hsy, hcl], by simp [Close], by simp, by simp, by simp⟩
  · rw [Bool.not_eq_true] at hsy
    exact ⟨{ r with onceUsed := true, done := true, syncs := r.syncs + 1 }, some (GoErr.ioErr "sync"), by simp [Close, honce, hfp, hsy], by simp [Close], by simp, by simp, by simp⟩

theorem close_idempotent_effects_witness :
    ∃ r1 e1, Close allOkEnv demoRW = some (r1, e1) ∧
      Close allOkEnv r1 = some (r1, none) ∧
      r1.syncs = demoRW.syncs + 1 ∧ r1.closes ≤ demoRW.closes + 1 ∧
      (e1 = none → r1.closes = demoRW.closes + 1) :=
  close_idempotent_effects allOkEnv demoRW (by decide) (by decide)

/-- C10 counterexample: with the hand-off queue already holding its maximum
of 100 pending entries, the channel send inside rotate blocks (no
`select`/`default` surrounds it), so the rotation does not return — refuting
the claim that the enqueue never blocks even on a full queue. -/
theorem rotate_blocks_on_full_queue :
    rotate allOkEnv "t1" demoRWFullQueue = none := by decide

/-- C10 amended: the enqueue is non-blocking and the rotation returns
whenever the queue holds fewer than its 100-entry capacity: below capacity
rotate always returns, and on the rename path the retired backup name is
appended to the queue. -/
theorem rotate_returns_below_capacity (env : SysEnv) (ts : String) (r : RW)
    (hq : r.queue.length < chanCap) :
    (∃ out, rotate env ts r = some out) ∧
    (r.fpOpen = true → env.fpCloseOk = true → env.statOk = true →
      env.renameOk = true → 0 < r.backupName.length →
      ∃ r2 e, rotate env ts r = some (r2, e) ∧
        r2.queue = r.queue ++ [r.backupName]) := by
  constructor
  · simp only [rotate, chanSend, hq, if_true]
    split
    · exact ⟨_, rfl⟩
    · split
      · split
        · exact ⟨_, rfl⟩
        · split <;> exact ⟨_, rfl⟩
      · split <;> exact ⟨_, rfl⟩
  · intro hfp hcl hst hrn hbn
    simp only [rotate, chanSend, hq, hfp, hcl, hst, hrn, hbn]
    norm_num
    split <;> exact ⟨_, ⟨_, rfl⟩, by simp⟩

theorem rotate_returns_below_capacity_witness :
    (∃ out, rotate allOkEnv "t1" demoRW = some out) ∧
    (demoRW.fpOpen = true → allOkEnv.fpCloseOk = true → allOkEnv.statOk = true →
      allOkEnv.renameOk = true → 0 < demoRW.backupName.length →
      ∃ r2 e, rotate allOkEnv "t1" demoRW = some (r2, e) ∧
        r2.queue = demoRW.queue ++ [demoRW.backupName]) :=
  rotate_returns_below_capacity allOkEnv "t1" demoRW (by decide)

/-- C6: a payload that fits the size budget but whose append would overflow
the current size triggers exactly one rotation before appending: the size
counter is reset to zero by the rotation and after the write equals len(p);
the fresh active file holds exactly the payload and the retired backup name
was handed to the maintainer queue. -/
theorem write_overflow_rotates_once (env : SysEnv) (ts : String) (p : Nat) (r : RW)
    (hdone : r.done = false) (hlatch : r.errLatch = none)
    (hp : (p : Int) ≤ r.maxSize) (hover : r.maxSize < r.size + (p : Int))
    (hfp : r.fpOpen = true) (hbn : 0 < r.backupName.length)
    (hq : r.queue.length < chanCap)
    (hst : env.statOk = true) (hrn : env.renameOk = true) (hcr : env.createOk = true)
    (hfc : env.fpCloseOk = true) (hfw : env.fpWriteOk = true) :
    ∃ r2, Write env ts p r = some (r2, p, none) ∧ r2.size = (p : Int) ∧
      r2.fileBytes = p ∧ r2.rotations = r.rotations + 1 ∧
      r2.queue = r.queue ++ [r.backupName] := by
  have hple : ¬ ((p : Int) > r.maxSize) := not_lt.mpr hp
  have hov : r.size + (p : Int) > r.maxSize := hover
  refine ⟨{ r with backupName := backupFileName r.pfx r.delim ts r.ext, fpOpen := true, fileBytes := p, queue := r.queue ++ [r.backupName], size := (p : Int), rotations := r.rotations + 1 }, ?_, by simp, by simp, by simp, by simp⟩
  simp only [Write, write, rotate, writeAppend, chanSend, hdone, hlatch, hfp,
    hst, hrn, hcr, hfc, hfw, hbn, hq, hple, hov]
  norm_num

theorem write_overflow_rotates_once_witness :
    ∃ r2, Write allOkEnv "t1" 20 demoRW = some (r2, 20, none) ∧ r2.size = (20 : Int) ∧
      r2.fileBytes = 20 ∧ r2.rotations = demoRW.rotations + 1 ∧
      r2.queue = demoRW.queue ++ [demoRW.backupName] :=
  write_overflow_rotates_once allOkEnv "t1" 20 demoRW (by decide) (by decide)
    (by decide) (by decide) (by decide) (by decide) (by decide) (by decide)
    (by decide) (by decide) (by decide) (by decide)

theorem sortStrings_length (l : List String) : (sortStrings l).length = l.length :=
  List.length_insertionSort _ l

theorem sortStrings_sorted (l : List String) :
    List.Sorted (· ≤ ·) (sortStrings l) :=
  List.sorted_insertionSort _ l

/-- C8: with a positive maxBackups budget and more existing backups than the
budget, the count sweep sorts ascending and removes exactly the
n - maxBackups lexically smallest names, in both revisions; every removed
name is ≤ every kept name; the sort is a permutation of the listing; and a
non-positive maxBackups disables the sweep entirely in both revisions. -/
theorem count_sweep_deletes_oldest (k : Int) (files : List String)
    (hk : 0 < k) (hn : k < (files.length : Int)) :
    removeOverMaxFiles k true (fun _ => true) files
        = ((sortStrings files).take (files.length - k.toNat), none) ∧
    deleteOverMaxFiles k true (fun _ => true) files
        = some ((sortStrings files).take (files.length - k.toNat), none) ∧
    ((sortStrings files).take (files.length - k.toNat)).length
        = files.length - k.toNat ∧
    (∀ a ∈ (sortStrings files).take (files.length - k.toNat),
        ∀ b ∈ (sortStrings files).drop (files.length - k.toNat), a ≤ b) ∧
    List.Perm (sortStrings files) files ∧
    (∀ k2 : Int, k2 ≤ 0 →
      removeOverMaxFiles k2 true (fun _ => true) files = ([], none) ∧
      deleteOverMaxFiles k2 true (fun _ => true) files = some ([], none)) := by
  have hlen := sortStrings_length files
  have hk0 : ¬ k ≤ 0 := not_le.mpr hk
  have hguard : ¬ (k ≤ 0 ∨ ((sortStrings files).length : Int) ≤ k) := by
    rw [hlen]; push_neg; exact ⟨hk, by omega⟩
  have hguard2 : ¬ (k ≤ 0 ∧ k ≥ ((sortStrings files).length : Int)) := by
    rw [hlen]; omega
  have hnn : ¬ (((sortStrings files).length : Int) - k < 0) := by rw [hlen]; omega
  refine ⟨?_, ?_, ?_, ?_, List.perm_insertionSort _ _, ?_⟩
  · simp only [removeOverMaxFiles, hk0, hguard, if_false, Bool.not_true,
      removeLoop_all_ok, hlen]
    norm_num [removeLoop_all_ok]
    intro h
    exact absurd h (by omega)
  · simp only [deleteOverMaxFiles, hk0, hguard2, hnn, if_false, Bool.not_true,
      removeLoop_all_ok, hlen]
    norm_num [removeLoop_all_ok]
    intro h
    exact absurd h (by omega)
  · rw [List.length_take, hlen]; omega
  · intro a ha b hb
    exact (sortStrings_sorted files).rel_of_mem_take_of_mem_drop ha hb
  · intro k2 hk2
    constructor <;> simp [removeOverMaxFiles, deleteOverMaxFiles, hk2]

theorem count_sweep_deletes_oldest_witness :
    removeOverMaxFiles 5 true (fun _ => true) ["f3", "f1", "f2", "f6", "f5", "f4"]
        = ((sortStrings ["f3", "f1", "f2", "f6", "f5", "f4"]).take
            (["f3", "f1", "f2", "f6", "f5", "f4"].length - (5 : Int).toNat), none) ∧
    deleteOverMaxFiles 5 true (fun _ => true) ["f3", "f1", "f2", "f6", "f5", "f4"]
        = some ((sortStrings ["f3", "f1", "f2", "f6", "f5", "f4"]).take
            (["f3", "f1", "f2", "f6", "f5", "f4"].length - (5 : Int).toNat), none) ∧
    ((sortStrings ["f3", "f1", "f2", "f6", "f5", "f4"]).take
        (["f3", "f1", "f2", "f6", "f5", "f4"].length - (5 : Int).toNat)).length
        = ["f3", "f1", "f2", "f6", "f5", "f4"].length - (5 : Int).toNat ∧
    (∀ a ∈ (sortStrings ["f3", "f1", "f2", "f6", "f5", "f4"]).take
        (["f3", "f1", "f2", "f6", "f5", "f4"].length - (5 : Int).toNat),
      ∀ b ∈ (sortStrings ["f3", "f1", "f2", "f6", "f5", "f4"]).drop
        (["f3", "f1", "f2", "f6", "f5", "f4"].length - (5 : Int).toNat), a ≤ b) ∧
    List.Perm (sortStrings ["f3", "f1", "f2", "f6", "f5", "f4"]) ["f3", "f1", "f2", "f6", "f5", "f4"] ∧
    (∀ k2 : Int, k2 ≤ 0 →
      removeOverMaxFiles k2 true (fun _ => true) ["f3", "f1", "f2", "f6", "f5", "f4"] = ([], none) ∧
      deleteOverMaxFiles k2 true (fun _ => true) ["f3", "f1", "f2", "f6", "f5", "f4"]
        = some ([], none)) :=
  count_sweep_deletes_oldest 5 ["f3", "f1", "f2", "f6", "f5", "f4"]
    (by decide) (by decide)

theorem ageSweepLoop_all_ok (b : String) (l : List String) :
    ageSweepLoop b (fun _ => true) l = (l.filter (fun f => decide (f < b)), none) := by
  induction l with
  | nil => rfl
  | cons f fs ih =>
    by_cases h : b ≤ f
    · have hnlt : decide (f < b) = false := decide_eq_false (not_lt.mpr h)
      rw [List.filter_cons, hnlt]
      simp only [ageSweepLoop, if_pos h, ih, Bool.false_eq_true, if_false]
    · have hlt : decide (f < b) = true := decide_eq_true (not_le.mp h)
      rw [List.filter_cons, hlt]
      simp only [ageSweepLoop, if_neg h, ih, if_true]

theorem ageSweepLoop_removed_lt (b : String) (ok : String → Bool) (l : List String) :
    ∀ f ∈ (ageSweepLoop b ok l).1, f < b := by
  induction l with
  | nil => intro f hf; simp [ageSweepLoop] at hf
  | cons g gs ih =>
    intro f hf
    by_cases h : b ≤ g
    · rw [ageSweepLoop, if_pos h] at hf
      exact ih f hf
    · by_cases hok : ok g = true
      · simp only [ageSweepLoop, if_neg h, if_pos hok] at hf
        rcases List.mem_cons.mp hf with rfl | hf2
        · exact not_le.mp h
        · exact ih f hf2
      · simp only [ageSweepLoop, if_neg h, if_neg hok] at hf
        simp at hf

/-- C9: with positive max days and every deletion succeeding, the age sweep
removes exactly the listed backups whose names sort lexically below the
boundary name built from the current clock shifted back by 24·maxDays
hours; whatever the removal outcomes, no removed backup is at or above the
boundary; a non-positive max days disables the sweep entirely. -/
theorem age_sweep_boundary (pfx delim ext : String) (gz : Bool) (maxDays : Int)
    (fmt : Int → String) (now : Int) (ok : String → Bool) (files : List String)
    (hd : 0 < maxDays) :
    removeOutdatedFiles pfx delim ext gz maxDays fmt now true (fun _ => true) files
      = (files.filter (fun f => decide (f < boundaryFileName pfx delim
          (dateline fmt now (-(nsPerHour * (24 * maxDays)))) ext gz)), none) ∧
    (∀ f ∈ (removeOutdatedFiles pfx delim ext gz maxDays fmt now true ok files).1,
        f < boundaryFileName pfx delim
          (dateline fmt now (-(nsPerHour * (24 * maxDays)))) ext gz) ∧
    (∀ d2 : Int, d2 ≤ 0 →
        removeOutdatedFiles pfx delim ext gz d2 fmt now true ok files = ([], none)) := by
  have hd0 : ¬ maxDays ≤ 0 := not_le.mpr hd
  have hstep : ∀ ok2 : String → Bool,
      removeOutdatedFiles pfx delim ext gz maxDays fmt now true ok2 files
        = ageSweepLoop (boundaryFileName pfx delim
            (dateline fmt now (-(nsPerHour * (24 * maxDays)))) ext gz) ok2 files := by
    intro ok2
    simp only [removeOutdatedFiles, hd0, if_false, Bool.not_true, Bool.false_eq_true]
  refine ⟨?_, ?_, ?_⟩
  · rw [hstep]
    exact ageSweepLoop_all_ok _ _
  · rw [hstep]
    exact ageSweepLoop_removed_lt _ _ _
  · intro d2 h2
    simp [removeOutdatedFiles, h2]

theorem age_sweep_boundary_witness :
    removeOutdatedFiles "a" "-" ".log" false 1 (fun _ => "2026-01-01T00:00:00.000") 0
        true (fun _ => true)
        ["a-2025-12-30T00:00:00.000.log", "a-2026-01-02T00:00:00.000.log"]
      = (["a-2025-12-30T00:00:00.000.log", "a-2026-01-02T00:00:00.000.log"].filter
          (fun f => decide (f < boundaryFileName "a" "-"
            (dateline (fun _ => "2026-01-01T00:00:00.000") 0 (-(nsPerHour * (24 * 1))))
            ".log" false)), none) ∧
    (∀ f ∈ (removeOutdatedFiles "a" "-" ".log" false 1
        (fun _ => "2026-01-01T00:00:00.000") 0 true (fun _ => true)
        ["a-2025-12-30T00:00:00.000.log", "a-2026-01-02T00:00:00.000.log"]).1,
      f < boundaryFileName "a" "-"
        (dateline (fun _ => "2026-01-01T00:00:00.000") 0 (-(nsPerHour * (24 * 1))))
        ".log" false) ∧
    (∀ d2 : Int, d2 ≤ 0 →
      removeOutdatedFiles "a" "-" ".log" false d2 (fun _ => "2026-01-01T00:00:00.000") 0
        true (fun _ => true)
        ["a-2025-12-30T00:00:00.000.log", "a-2026-01-02T00:00:00.000.log"] = ([], none)) :=
  age_sweep_boundary "a" "-" ".log" false 1 (fun _ => "2026-01-01T00:00:00.000") 0
    (fun _ => true) ["a-2025-12-30T00:00:00.000.log", "a-2026-01-02T00:00:00.000.log"]
    (by decide)

theorem padDigits_length (w : Nat) : ∀ n, (padDigits w n).length = w := by
  induction w with
  | zero => intro n; rfl
  | succ w ih => intro n; simp [padDigits, ih]

theorem digitChar_mono : ∀ a < 10, ∀ b < 10, a < b →
    Nat.digitChar a < Nat.digitChar b := by decide

theorem lex_append_of_length_eq {α : Type} {r : α → α → Prop} :
    ∀ {s t : List α}, List.Lex r s t → s.length = t.length →
      ∀ (u v : List α), List.Lex r (s ++ u) (t ++ v) := by
  intro s t h
  induction h with
  | nil => intro hlen; simp at hlen
  | @cons a l1 l2 hl ih =>
    intro hlen u v
    simp only [List.length_cons, Nat.add_right_cancel_iff] at hlen
    exact List.Lex.cons (ih hlen u v)
  | @rel a1 l1 a2 l2 hab => intro _ u v; exact List.Lex.rel hab

theorem padDigits_lex : ∀ {w m n : Nat}, m < n → n < 10 ^ w →
    List.Lex (· < ·) (padDigits w m) (padDigits w n) := by
  intro w
  induction w with
  | zero =>
    intro m n h hn
    rw [pow_zero] at hn
    exact absurd h (by omega)
  | succ w ih =>
    intro m n h hn
    by_cases hdiv : m / 10 = n / 10
    · simp only [padDigits, hdiv]
      refine List.Lex.append_left _ ?_ _
      refine List.Lex.rel ?_
      exact digitChar_mono _ (Nat.mod_lt _ (by norm_num)) _
        (Nat.mod_lt _ (by norm_num)) (by omega)
    · have hlt : m / 10 < n / 10 := by omega
      have hn2 : n / 10 < 10 ^ w := by
        rw [pow_succ] at hn
        omega
      simp only [padDigits]
      exact lex_append_of_length_eq (ih hlt hn2) (by simp [padDigits_length]) _ _

theorem pad2_lex {m n : Nat} (h : m < n) (hn : n < 100) :
    List.Lex (· < ·) (padDigits 2 m) (padDigits 2 n) :=
  padDigits_lex h (lt_of_lt_of_eq hn (by norm_num))

theorem pad3_lex {m n : Nat} (h : m < n) (hn : n < 1000) :
    List.Lex (· < ·) (padDigits 3 m) (padDigits 3 n) :=
  padDigits_lex h (lt_of_lt_of_eq hn (by norm_num))

theorem pad4_lex {m n : Nat} (h : m < n) (hn : n < 10000) :
    List.Lex (· < ·) (padDigits 4 m) (padDigits 4 n) :=
  padDigits_lex h (lt_of_lt_of_eq hn (by norm_num))

theorem milliChars_length (t : DateTime) : (milliChars t).length = 23 := by
  simp [milliChars, dtChars, padDigits_length]

/-- Strict chronological order of instants at millisecond precision maps to
strict lexical order of the fixed-width `2006-01-02T15:04:05.000`
renderings. -/
theorem milliChars_lex {t1 t2 : DateTime} (h1 : validDT t1) (h2 : validDT t2)
    (h : dtLt t1 t2) :
    List.Lex (· < ·) (milliChars t1) (milliChars t2) := by
  obtain ⟨hy1, hmo1, hd1, hh1, hmi1, hs1, hms1⟩ := h1
  obtain ⟨hy2, hmo2, hd2, hh2, hmi2, hs2, hms2⟩ := h2
  simp only [milliChars, dtChars, List.append_assoc]
  rcases h with hy | ⟨hy, hmo | ⟨hmo, hd | ⟨hd, hh | ⟨hh, hmi | ⟨hmi, hs | ⟨hs, hms⟩⟩⟩⟩⟩⟩
  · exact lex_append_of_length_eq (pad4_lex hy hy2) (by simp [padDigits_length]) _ _
  · rw [hy]
    exact List.Lex.append_left _ (List.Lex.append_left _
      (lex_append_of_length_eq (pad2_lex hmo hmo2) (by simp [padDigits_length]) _ _) _) _
  · rw [hy, hmo]
    exact List.Lex.append_left _ (List.Lex.append_left _ (List.Lex.append_left _
      (List.Lex.append_left _
        (lex_append_of_length_eq (pad2_lex hd hd2) (by simp [padDigits_length]) _ _)
        _) _) _) _
  · rw [hy, hmo, hd]
    exact List.Lex.append_left _ (List.Lex.append_left _ (List.Lex.append_left _
      (List.Lex.append_left _ (List.Lex.append_left _ (List.Lex.append_left _
        (lex_append_of_length_eq (pad2_lex hh hh2) (by simp [padDigits_length]) _ _)
        _) _) _) _) _) _
  · rw [hy, hmo, hd, hh]
    exact List.Lex.append_left _ (List.Lex.append_left _ (List.Lex.append_left _
      (List.Lex.append_left _ (List.Lex.append_left _ (List.Lex.append_left _
        (List.Lex.append_left _ (List.Lex.append_left _
          (lex_append_of_length_eq (pad2_lex hmi hmi2) (by simp [padDigits_length]) _ _)
          _) _) _) _) _) _) _) _
  · rw [hy, hmo, hd, hh, hmi]
    exact List.Lex.append_left _ (List.Lex.append_left _ (List.Lex.append_left _
      (List.Lex.append_left _ (List.Lex.append_left _ (List.Lex.append_left _
        (List.Lex.append_left _ (List.Lex.append_left _ (List.Lex.append_left _
          (List.Lex.append_left _
            (lex_append_of_length_eq (pad2_lex hs hs2) (by simp [padDigits_length]) _ _)
            _) _) _) _) _) _) _) _) _) _
  · rw [hy, hmo, hd, hh, hmi, hs]
    exact List.Lex.append_left _ (List.Lex.append_left _ (List.Lex.append_left _
      (List.Lex.append_left _ (List.Lex.append_left _ (List.Lex.append_left _
        (List.Lex.append_left _ (List.Lex.append_left _ (List.Lex.append_left _
          (List.Lex.append_left _ (List.Lex.append_left _ (List.Lex.append_left _
            (pad3_lex hms hms2) _) _) _) _) _) _) _) _) _) _) _) _

theorem string_append_data (s t : String) : (s ++ t).data = s.data ++ t.data := by
  cases s; cases t; rfl

/-- C3 amended: with the fixed-width zero-padded default format
`2006-01-02T15:04:05.000` (the `defaultTimeFormat` of the
`defaultMaxBackups = 0` constants revision), for every two wall instants t1
strictly earlier than t2 at millisecond precision, the backup name built
from t1 sorts lexically strictly before the one built from t2, for every
prefix, delimiter and extension.  The format carries no zone suffix, so the
local-time and UTC policies differ only in which wall instant is formatted
and both enjoy this ordering; the claim as stated — for the constants.go
format `...05.999Z07:00` — fails under UTC (see the counterexample). -/
theorem backup_names_sorted_milli (pfx delim ext : String) (t1 t2 : DateTime)
    (h1 : validDT t1) (h2 : validDT t2) (h : dtLt t1 t2) :
    backupFileName pfx delim (formatMilli t1) ext <
      backupFileName pfx delim (formatMilli t2) ext := by
  rw [String.lt_iff_toList_lt]
  show List.Lex (· < ·) (backupFileName pfx delim (formatMilli t1) ext).data
    (backupFileName pfx delim (formatMilli t2) ext).data
  have hdata : ∀ t : DateTime, (backupFileName pfx delim (formatMilli t) ext).data
      = pfx.data ++ (delim.data ++ (milliChars t ++ ext.data)) := by
    intro t
    simp [backupFileName, formatMilli, string_append_data]
  rw [hdata, hdata]
  exact List.Lex.append_left _ (List.Lex.append_left _
    (lex_append_of_length_eq (milliChars_lex h1 h2 h)
      (by simp [milliChars_length]) _ _) _) _

theorem backup_names_sorted_milli_witness :
    validDT ⟨2026, 1, 2, 15, 4, 5, 7⟩ ∧ validDT ⟨2026, 1, 2, 15, 4, 5, 8⟩ ∧
    dtLt ⟨2026, 1, 2, 15, 4, 5, 7⟩ ⟨2026, 1, 2, 15, 4, 5, 8⟩ ∧
    backupFileName "app" "-" (formatMilli ⟨2026, 1, 2, 15, 4, 5, 7⟩) ".log" <
      backupFileName "app" "-" (formatMilli ⟨2026, 1, 2, 15, 4, 5, 8⟩) ".log" :=
  ⟨by decide, by decide, by decide,
    backup_names_sorted_milli "app" "-" ".log" ⟨2026, 1, 2, 15, 4, 5, 7⟩
      ⟨2026, 1, 2, 15, 4, 5, 8⟩ (by decide) (by decide) (by decide)⟩

/-- C3 counterexample: with the constants.go default format
`2006-01-02T15:04:05.999Z07:00` under the UTC policy (zone offset 0, suffix
`Z`), the instant 2026-01-02 15:04:05.000 — strictly earlier — formats as
`...05Z` while 15:04:05.500 formats as `...05.5Z`; since `Z` sorts after
`.`, the earlier instant's backup name sorts lexically strictly after the
later one's, so lexical order of backup names does not coincide with
chronological order. -/
theorem format999_utc_order_reversal :
    dtLt ⟨2026, 1, 2, 15, 4, 5, 0⟩ ⟨2026, 1, 2, 15, 4, 5, 500⟩ ∧
    validDT ⟨2026, 1, 2, 15, 4, 5, 0⟩ ∧ validDT ⟨2026, 1, 2, 15, 4, 5, 500⟩ ∧
    backupFileName "app" "-" (format999 ⟨2026, 1, 2, 15, 4, 5, 500⟩ 0) ".log"
      < backupFileName "app" "-" (format999 ⟨2026, 1, 2, 15, 4, 5, 0⟩ 0) ".log" ∧
    ¬ (backupFileName "app" "-" (format999 ⟨2026, 1, 2, 15, 4, 5, 0⟩ 0) ".log"
      < backupFileName "app" "-" (format999 ⟨2026, 1, 2, 15, 4, 5, 500⟩ 0) ".log") := by
  simp only [String.lt_iff_toList_lt]
  decide

end Rotate
